import Mathlib

/-!
Verification of the flaskapp repository (src/app.py and
src/many_to_many_example.py): a shallow embedding of the SQLAlchemy-backed
data model (User / Post / Tag with a post_tags association table), the five
route handlers, and the sqlalchemy_serializer `to_dict` output shapes, with
theorems settling the spec's claims.
-/

/-- JSON-like values produced by serialization (`jsonify` of `to_dict`). -/
inductive J where
  | num : Nat → J
  | str : String → J
  | null : J
  | arr : List J → J
  | obj : List (String × J) → J

/-- Row of the `users` table (app.py lines 20-37, many_to_many lines 95-108):
    integer primary key `id`, non-nullable string `name`. -/
structure User where
  id : Nat
  name : String
deriving DecidableEq, Repr

/-- Row of the `posts` table (app.py lines 42-61, many_to_many lines 60-89):
    integer primary key `id`, non-nullable `title` and `content`,
    nullable foreign key `user_id` referencing `users.id`. -/
structure Post where
  id : Nat
  title : String
  content : String
  user_id : Option Nat
deriving DecidableEq, Repr

/-- Row of the `tags` table (many_to_many lines 31-43):
    integer primary key `id`, non-nullable unique string `name`. -/
structure Tag where
  id : Nat
  name : String
deriving DecidableEq, Repr

/-- Database state: the tables of both services. `post_tags` is the
    association (bridge) table of many_to_many lines 21-25, whose rows are
    (post_id, tag_id) pairs with composite primary key. -/
structure DB where
  users : List User
  posts : List Post
  tags : List Tag
  post_tags : List (Nat × Nat)
deriving DecidableEq, Repr

/-- `Post.query.get_or_404(post_id)` — look a post up by primary key. -/
def getPost (db : DB) (pid : Nat) : Option Post :=
  db.posts.find? (fun p => p.id == pid)

/-- `Tag.query.get_or_404(tag_id)` — look a tag up by primary key. -/
def getTag (db : DB) (tid : Nat) : Option Tag :=
  db.tags.find? (fun t => t.id == tid)

/-- `User.query` lookup by primary key. -/
def getUser (db : DB) (uid : Nat) : Option User :=
  db.users.find? (fun u => u.id == uid)

/-- `Tag.query.filter_by(name=...).first()` (many_to_many line 122). -/
def findTagByName (db : DB) (n : String) : Option Tag :=
  db.tags.find? (fun t => t.name == n)

/-- SQLite assigns the next integer primary key: one more than the largest
    key in use. -/
def nextId (ids : List Nat) : Nat :=
  ids.foldr max 0 + 1

/-- The tag ids associated with post `pid` through the `post_tags` table. -/
def postTagIds (db : DB) (pid : Nat) : List Nat :=
  (db.post_tags.filter (fun pr => pr.1 == pid)).map (fun pr => pr.2)

/-- Modelled from the spec: the ORM relationship `Post.tags`
    (many_to_many lines 73-77, `secondary=post_tags`) — the relationship
    view is maintained by SQLAlchemy, not by code in src/; per spec §3 the
    existence of an association row *is* the relationship. -/
def postTagsOf (db : DB) (p : Post) : List Tag :=
  (db.post_tags.filter (fun pr => pr.1 == p.id)).filterMap (fun pr => getTag db pr.2)

/-- Modelled from the spec: the ORM relationship `Tag.posts`
    (many_to_many lines 39-43, `secondary=post_tags`, `back_populates`),
    the reverse view of the same association table. -/
def tagPostsOf (db : DB) (t : Tag) : List Post :=
  (db.post_tags.filter (fun pr => pr.2 == t.id)).filterMap (fun pr => getPost db pr.1)

/-- Modelled from the spec: the ORM relationship `User.posts`
    (app.py lines 30-34, `back_populates="user"`): the posts whose
    foreign key `user_id` references this user. -/
def userPostsOf (db : DB) (u : User) : List Post :=
  db.posts.filter (fun p => p.user_id == some u.id)

/-- Modelled from the spec: the ORM relationship `Post.user`
    (app.py line 58): the user the foreign key `user_id` references. -/
def postUserOf (db : DB) (p : Post) : Option User :=
  match p.user_id with
  | none => none
  | some uid => getUser db uid

/-- Serialization of a nullable integer column. -/
def jOptNat : Option Nat → J
  | none => J.null
  | some n => J.num n

/-- Scalar columns of a `User`. -/
def userScalars (u : User) : List (String × J) :=
  [("id", J.num u.id), ("name", J.str u.name)]

/-- Scalar columns of a `Post`. -/
def postScalars (p : Post) : List (String × J) :=
  [("id", J.num p.id), ("title", J.str p.title), ("content", J.str p.content),
   ("user_id", jOptNat p.user_id)]

/-- Scalar columns of a `Tag`. -/
def tagScalars (t : Tag) : List (String × J) :=
  [("id", J.num t.id), ("name", J.str t.name)]

/-- Modelled from the spec §4.1: `sqlalchemy_serializer.to_dict` (a
    third-party library, not in src/) for the many_to_many `Post` with
    `serialize_rules = ("-user.posts", "-tags.posts")` (line 83): all scalar
    columns, the `user` relationship with its own `posts` cut, and the
    `tags` relationship with each tag's `posts` cut. -/
def post_to_dict (db : DB) (p : Post) : J :=
  J.obj (postScalars p ++
    [("user", match postUserOf db p with
              | none => J.null
              | some u => J.obj (userScalars u)),
     ("tags", J.arr ((postTagsOf db p).map (fun t => J.obj (tagScalars t))))])

/-- Modelled from the spec §4.1: the serialization of one post nested under
    a `Tag` serialized with rule `("-posts.tags",)` (many_to_many line 48):
    the nested post's `tags` relationship is cut by the rule, and its `user`
    relationship keeps only the user's scalar columns (the nested post's own
    rule `-user.posts` cuts the user's posts). -/
def tag_post_entry (db : DB) (p : Post) : J :=
  J.obj (postScalars p ++
    [("user", match postUserOf db p with
              | none => J.null
              | some u => J.obj (userScalars u))])

/-- Modelled from the spec §4.1 and §8: `to_dict` for a `Tag` with
    `serialize_rules = ("-posts.tags",)` (many_to_many line 48, the spec's
    stated rule for Tag): scalar columns plus the `posts` relationship with
    each nested post's `tags` cut. -/
def tag_to_dict (db : DB) (t : Tag) : J :=
  J.obj (tagScalars t ++
    [("posts", J.arr ((tagPostsOf db t).map (tag_post_entry db)))])

/-- Modelled from the spec §4.1: `to_dict` for the app.py `Post` with
    `serialize_rules = ("-user.posts",)` (app.py line 61): scalar columns
    plus the `user` relationship with the user's `posts` cut. -/
def post_to_dict_app (db : DB) (p : Post) : J :=
  J.obj (postScalars p ++
    [("user", match postUserOf db p with
              | none => J.null
              | some u => J.obj (userScalars u))])

/-- Modelled from the spec §4.1: `to_dict` for `User` with
    `serialize_rules = ("-posts.user",)` (app.py line 37): scalar columns
    plus the `posts` relationship, each nested post with its `user` cut. -/
def user_to_dict (db : DB) (u : User) : J :=
  J.obj (userScalars u ++
    [("posts", J.arr ((userPostsOf db u).map (fun p => J.obj (postScalars p))))])

/-- Handler `add_tag_to_post` (many_to_many lines 115-133):
    `POST /posts/<post_id>/tags` with body `{"tag_name": tag_name}`.
    `get_or_404` on the post; find-or-create the tag by name; append the tag
    to `post.tags` only if not already present; commit; return 200 with the
    serialized post. Returns (status, new state, optional body). -/
def add_tag_to_post (db : DB) (post_id : Nat) (tag_name : String) :
    Nat × DB × Option J :=
  match getPost db post_id with
  | none => (404, db, none)
  | some post =>
      let found := findTagByName db tag_name
      let tag : Tag :=
        match found with
        | some t => t
        | none => { id := nextId (db.tags.map (fun t => t.id)), name := tag_name }
      let db1 : DB :=
        match found with
        | some _ => db
        | none => { db with tags := db.tags ++ [tag] }
      let db2 : DB :=
        if (postTagIds db1 post_id).contains tag.id then db1
        else { db1 with post_tags := db1.post_tags ++ [(post_id, tag.id)] }
      (200, db2, some (post_to_dict db2 post))

/-- Handler `remove_tag_from_post` (many_to_many lines 136-148):
    `DELETE /posts/<post_id>/tags/<tag_id>`. `get_or_404` on both the post
    and the tag; remove the tag from `post.tags` only if present (deleting
    the association row); commit; return 200 with the serialized post. -/
def remove_tag_from_post (db : DB) (post_id tag_id : Nat) :
    Nat × DB × Option J :=
  match getPost db post_id with
  | none => (404, db, none)
  | some post =>
      match getTag db tag_id with
      | none => (404, db, none)
      | some tag =>
          let db2 : DB :=
            if (postTagIds db post_id).contains tag.id then
              { db with post_tags :=
                  db.post_tags.filter (fun pr => !(pr.1 == post_id && pr.2 == tag.id)) }
            else db
          (200, db2, some (post_to_dict db2 post))

/-- Handler `create_user` (app.py lines 80-95): `POST /users` with body
    `{"name": name}`. A new user row is inserted with the next primary key;
    commit; return 201 with the serialized user. -/
def create_user (db : DB) (name : String) : Nat × DB × J :=
  let u : User := { id := nextId (db.users.map (fun u => u.id)), name := name }
  let db1 : DB := { db with users := db.users ++ [u] }
  (201, db1, user_to_dict db1 u)

/-- Handler `get_tags` (many_to_many lines 151-155): `GET /tags` returns
    every tag serialized, status 200. -/
def get_tags (db : DB) : Nat × J :=
  (200, J.arr (db.tags.map (tag_to_dict db)))

/-- Handler `get_posts` (many_to_many lines 158-162): `GET /posts` returns
    every post serialized, status 200. -/
def get_posts (db : DB) : Nat × J :=
  (200, J.arr (db.posts.map (post_to_dict db)))

/-- Handler `get_users` (app.py lines 70-76): `GET /users` returns every
    user serialized, status 200. -/
def get_users (db : DB) : Nat × J :=
  (200, J.arr (db.users.map (user_to_dict db)))

/-- Modelled from the spec: no user-deletion route exists in src/; the spec
    (§3, §8) states that deleting a User cascades deletion of its Posts,
    which is the `cascade="all, delete-orphan"` configuration on
    `User.posts` (app.py lines 30-34) executed by the ORM. Deleting a user
    removes the user row, every post row whose `user_id` references it, and
    the association rows of those posts. -/
def delete_user (db : DB) (uid : Nat) : DB :=
  let deadPosts := (db.posts.filter (fun p => p.user_id == some uid)).map (fun p => p.id)
  { db with
    users := db.users.filter (fun u => !(u.id == uid)),
    posts := db.posts.filter (fun p => !(p.user_id == some uid)),
    post_tags := db.post_tags.filter (fun pr => !(deadPosts.contains pr.1)) }

mutual
/-- `noKey k j` holds when the key `k` appears nowhere in `j`, at any
    nesting level. -/
def noKey (k : String) : J → Bool
  | J.num _ => true
  | J.str _ => true
  | J.null => true
  | J.arr l => noKeyArr k l
  | J.obj l => noKeyObj k l

def noKeyArr (k : String) : List J → Bool
  | [] => true
  | j :: js => noKey k j && noKeyArr k js

def noKeyObj (k : String) : List (String × J) → Bool
  | [] => true
  | e :: es => (!(e.1 == k)) && noKey k e.2 && noKeyObj k es
end

/-- Look a key up in a serialized object. -/
def getKey (j : J) (k : String) : Option J :=
  match j with
  | J.obj l => (l.find? (fun e => e.1 == k)).map (fun e => e.2)
  | _ => none

/-- Every element of a list is at most its `foldr max 0`. -/
theorem le_foldr_max (ids : List Nat) : ∀ x ∈ ids, x ≤ ids.foldr max 0 := by
  induction ids with
  | nil => simp
  | cons a l ih =>
    intro x hx
    rcases List.mem_cons.1 hx with rfl | h
    · exact le_max_left _ _
    · exact (ih x h).trans (le_max_right _ _)

/-- The id SQLite assigns next is not already in use. -/
theorem nextId_not_mem (ids : List Nat) : nextId ids ∉ ids := by
  intro h
  have h2 := le_foldr_max ids (nextId ids) h
  unfold nextId at h2
  omega

/-- On a list whose keys `f x` are distinct, `find?` by key returns a listed
    element exactly when that element's key matches. -/
theorem find?_key_eq_some_iff {α : Type} (f : α → Nat) (k : Nat) :
    ∀ (l : List α), (l.map f).Nodup → ∀ a ∈ l,
      ((l.find? (fun x => f x == k) = some a) ↔ f a = k) := by
  intro l
  induction l with
  | nil => intro _ a ha; cases ha
  | cons b l ih =>
    intro hnd a ha
    rw [List.map_cons, List.nodup_cons] at hnd
    by_cases hb : f b = k
    · rw [List.find?_cons_of_pos _ (by simp [hb])]
      constructor
      · intro h
        injection h with h
        rw [← h, hb]
      · intro hfa
        rcases List.mem_cons.1 ha with rfl | hal
        · rfl
        · exact absurd (hb ▸ hfa ▸ List.mem_map_of_mem f hal) hnd.1
    · rw [List.find?_cons_of_neg _ (by simp [hb])]
      rcases List.mem_cons.1 ha with rfl | hal
      · constructor
        · intro h
          exact absurd (List.mem_map_of_mem f (List.mem_of_find?_eq_some h)) hnd.1
        · intro hfa
          exact absurd hfa hb
      · exact ih hnd.2 a hal

/-- A found post is a stored row whose id is the requested one. -/
theorem getPost_spec {db : DB} {pid : Nat} {post : Post}
    (h : getPost db pid = some post) : post ∈ db.posts ∧ post.id = pid := by
  refine ⟨List.mem_of_find?_eq_some h, ?_⟩
  have := List.find?_some h
  simpa using this

/-- A found tag is a stored row whose id is the requested one. -/
theorem getTag_spec {db : DB} {tid : Nat} {tag : Tag}
    (h : getTag db tid = some tag) : tag ∈ db.tags ∧ tag.id = tid := by
  refine ⟨List.mem_of_find?_eq_some h, ?_⟩
  have := List.find?_some h
  simpa using this

/-- A tag found by name is a stored row carrying the requested name. -/
theorem findTagByName_spec {db : DB} {n : String} {tag : Tag}
    (h : findTagByName db n = some tag) : tag ∈ db.tags ∧ tag.name = n := by
  refine ⟨List.mem_of_find?_eq_some h, ?_⟩
  have := List.find?_some h
  simpa using this

/-- `add_tag_to_post` never touches the users or posts tables, and either
    leaves the tags table unchanged or appends one freshly-keyed tag. -/
theorem add_tag_state (db : DB) (pid : Nat) (n : String) :
    ((add_tag_to_post db pid n).2.1).users = db.users ∧
    ((add_tag_to_post db pid n).2.1).posts = db.posts ∧
    (((add_tag_to_post db pid n).2.1).tags = db.tags ∨
     ((add_tag_to_post db pid n).2.1).tags =
       db.tags ++ [{ id := nextId (db.tags.map (fun t => t.id)), name := n }]) := by
  unfold add_tag_to_post
  cases h : getPost db pid with
  | none => simp
  | some post =>
    cases h2 : findTagByName db n with
    | some t =>
      simp only [h2]
      split <;> simp
    | none =>
      simp only [h2]
      split <;> simp

/-- `remove_tag_from_post` only ever deletes association rows: the users,
    posts and tags tables are unchanged, and the surviving association rows
    are a sublist of the old ones. -/
theorem remove_tag_state (db : DB) (pid tid : Nat) :
    ((remove_tag_from_post db pid tid).2.1).users = db.users ∧
    ((remove_tag_from_post db pid tid).2.1).posts = db.posts ∧
    ((remove_tag_from_post db pid tid).2.1).tags = db.tags ∧
    (∀ pr ∈ ((remove_tag_from_post db pid tid).2.1).post_tags, pr ∈ db.post_tags) := by
  unfold remove_tag_from_post
  cases h : getPost db pid with
  | none => simp
  | some post =>
    cases h2 : getTag db tid with
    | none => simp
    | some tag =>
      simp only [h2]
      split
      · refine ⟨rfl, rfl, rfl, ?_⟩
        intro pr hpr
        exact (List.mem_filter.1 hpr).1
      · simp

/-- `create_user` appends one freshly-keyed user and touches nothing else. -/
theorem create_user_state (db : DB) (s : String) :
    ((create_user db s).2.1).users =
      db.users ++ [{ id := nextId (db.users.map (fun u => u.id)), name := s }] ∧
    ((create_user db s).2.1).posts = db.posts ∧
    ((create_user db s).2.1).tags = db.tags ∧
    ((create_user db s).2.1).post_tags = db.post_tags := by
  unfold create_user
  exact ⟨rfl, rfl, rfl, rfl⟩

/-- Foreign-key check for a nullable reference. -/
def optFk (o : Option Nat) (ids : List Nat) : Bool :=
  match o with
  | none => true
  | some uid => ids.contains uid

/-- Well-formedness of a database state: primary keys are unique per table,
    tag names are unique (the `unique=True` column constraint), association
    rows are unique (composite primary key) and reference existing rows, and
    post foreign keys reference existing users. -/
def WF (db : DB) : Prop :=
  (db.users.map (fun u => u.id)).Nodup ∧
  (db.posts.map (fun p => p.id)).Nodup ∧
  (db.tags.map (fun t => t.id)).Nodup ∧
  (db.tags.map (fun t => t.name)).Nodup ∧
  db.post_tags.Nodup ∧
  (∀ pr ∈ db.post_tags, pr.1 ∈ db.posts.map (fun p => p.id)) ∧
  (∀ pr ∈ db.post_tags, pr.2 ∈ db.tags.map (fun t => t.id)) ∧
  (∀ p ∈ db.posts, optFk p.user_id (db.users.map (fun u => u.id)) = true)

/-- A stored tag is in a post's loaded tag collection exactly when the
    association table holds the linking row. -/
theorem mem_postTagsOf_iff (db : DB) (hnd : (db.tags.map (fun t => t.id)).Nodup)
    (p : Post) (t : Tag) (ht : t ∈ db.tags) :
    t ∈ postTagsOf db p ↔ (p.id, t.id) ∈ db.post_tags := by
  unfold postTagsOf
  rw [List.mem_filterMap]
  constructor
  · rintro ⟨pr, hpr, hfind⟩
    rw [List.mem_filter] at hpr
    unfold getTag at hfind
    have h1 : pr.1 = p.id := by simpa using hpr.2
    have h2 : t.id = pr.2 :=
      (find?_key_eq_some_iff (fun t => t.id) pr.2 db.tags hnd t ht).1 hfind
    have hpr' : pr = (p.id, t.id) := by
      cases pr
      simp_all
    rw [← hpr']
    exact hpr.1
  · intro h
    refine ⟨(p.id, t.id), List.mem_filter.2 ⟨h, by simp⟩, ?_⟩
    unfold getTag
    exact (find?_key_eq_some_iff (fun t => t.id) t.id db.tags hnd t ht).2 rfl

/-- A stored post is in a tag's loaded post collection exactly when the
    association table holds the linking row. -/
theorem mem_tagPostsOf_iff (db : DB) (hnd : (db.posts.map (fun p => p.id)).Nodup)
    (p : Post) (t : Tag) (hp : p ∈ db.posts) :
    p ∈ tagPostsOf db t ↔ (p.id, t.id) ∈ db.post_tags := by
  unfold tagPostsOf
  rw [List.mem_filterMap]
  constructor
  · rintro ⟨pr, hpr, hfind⟩
    rw [List.mem_filter] at hpr
    unfold getPost at hfind
    have h1 : pr.2 = t.id := by simpa using hpr.2
    have h2 : p.id = pr.1 :=
      (find?_key_eq_some_iff (fun p => p.id) pr.1 db.posts hnd p hp).1 hfind
    have hpr' : pr = (p.id, t.id) := by
      cases pr
      simp_all
    rw [← hpr']
    exact hpr.1
  · intro h
    refine ⟨(p.id, t.id), List.mem_filter.2 ⟨h, by simp⟩, ?_⟩
    unfold getPost
    exact (find?_key_eq_some_iff (fun p => p.id) p.id db.posts hnd p hp).2 rfl

/-- A stored post is in a user's loaded post collection exactly when its
    foreign key references that user. -/
theorem mem_userPostsOf_iff (db : DB) (u : User) (p : Post) :
    p ∈ userPostsOf db u ↔ p ∈ db.posts ∧ p.user_id = some u.id := by
  unfold userPostsOf
  rw [List.mem_filter]
  simp

/-- A post's loaded `user` is a given stored user exactly when its foreign
    key references that user. -/
theorem postUserOf_eq_some_iff (db : DB) (hnd : (db.users.map (fun u => u.id)).Nodup)
    (u : User) (hu : u ∈ db.users) (p : Post) :
    postUserOf db p = some u ↔ p.user_id = some u.id := by
  unfold postUserOf
  cases hid : p.user_id with
  | none => simp
  | some uid =>
    unfold getUser
    constructor
    · intro h
      have h2 : u.id = uid :=
        (find?_key_eq_some_iff (fun u => u.id) uid db.users hnd u hu).1 h
      rw [h2]
    · intro h
      injection h with h
      exact (find?_key_eq_some_iff (fun u => u.id) uid db.users hnd u hu).2 h.symm

/-- Back-reference symmetry of a state: the two loaded views of the Post↔Tag
    association agree, and the two loaded views of the User↔Post foreign key
    agree. -/
def SymmState (db : DB) : Prop :=
  (∀ p ∈ db.posts, ∀ t ∈ db.tags, (t ∈ postTagsOf db p ↔ p ∈ tagPostsOf db t)) ∧
  (∀ u ∈ db.users, ∀ p ∈ db.posts, (p ∈ userPostsOf db u ↔ postUserOf db p = some u))

/-- Any state with distinct primary keys has symmetric back-references. -/
theorem symmState_of_nodups (db : DB)
    (h1 : (db.users.map (fun u => u.id)).Nodup)
    (h2 : (db.posts.map (fun p => p.id)).Nodup)
    (h3 : (db.tags.map (fun t => t.id)).Nodup) :
    SymmState db := by
  constructor
  · intro p hp t ht
    rw [mem_postTagsOf_iff db h3 p t ht, mem_tagPostsOf_iff db h2 p t hp]
  · intro u hu p hp
    rw [mem_userPostsOf_iff db u p, postUserOf_eq_some_iff db h1 u hu p]
    simp [hp]

/-- Appending a freshly assigned key keeps a key list duplicate-free. -/
theorem nodup_append_fresh {l : List Nat} (h : l.Nodup) : (l ++ [nextId l]).Nodup := by
  rw [List.nodup_append]
  refine ⟨h, List.nodup_singleton _, ?_⟩
  intro x hx hy
  simp only [List.mem_singleton] at hy
  subst hy
  exact nextId_not_mem l hx

/-- Claim C7: after every route handler completes (tag attach, tag detach,
    creation), the Post↔Tag and User↔Post back-references are symmetric: a
    tag is in a post's tag collection iff the post is in the tag's post
    collection, and a post is in a user's post collection iff the post's
    user is that user. -/
theorem backrefs_symmetric_after_handlers (db : DB) (hwf : WF db)
    (pid tid : Nat) (n s : String) :
    SymmState ((add_tag_to_post db pid n).2.1) ∧
    SymmState ((remove_tag_from_post db pid tid).2.1) ∧
    SymmState ((create_user db s).2.1) := by
  obtain ⟨hu, hp, ht, -, -, -, -, -⟩ := hwf
  refine ⟨?_, ?_, ?_⟩
  · obtain ⟨e1, e2, e3⟩ := add_tag_state db pid n
    apply symmState_of_nodups
    · rw [e1]; exact hu
    · rw [e2]; exact hp
    · rcases e3 with e3 | e3
      · rw [e3]; exact ht
      · rw [e3]
        simpa using nodup_append_fresh ht
  · obtain ⟨e1, e2, e3, -⟩ := remove_tag_state db pid tid
    apply symmState_of_nodups
    · rw [e1]; exact hu
    · rw [e2]; exact hp
    · rw [e3]; exact ht
  · obtain ⟨e1, e2, e3, -⟩ := create_user_state db s
    apply symmState_of_nodups
    · rw [e1]
      simpa using nodup_append_fresh hu
    · rw [e2]; exact hp
    · rw [e3]; exact ht

/-- Witness for C7 at a concrete well-formed state. -/
theorem backrefs_symmetric_after_handlers_witness :
    SymmState ((add_tag_to_post ⟨[], [], [], []⟩ 1 "x").2.1) ∧
    SymmState ((remove_tag_from_post ⟨[], [], [], []⟩ 1 1).2.1) ∧
    SymmState ((create_user ⟨[], [], [], []⟩ "John Doe").2.1) :=
  backrefs_symmetric_after_handlers ⟨[], [], [], []⟩
    (by refine ⟨?_, ?_, ?_, ?_, ?_, ?_, ?_, ?_⟩ <;> simp [WF]) 1 1 "x" "John Doe"

/-- Claim C1: attaching via POST /posts/{id}/tags a tag that is already in
    the post's tag list leaves the database unchanged, and the tag appears
    at most once in the post's tag list after the operation. -/
theorem add_tag_idempotent (db : DB) (pid : Nat) (n : String) (post : Post)
    (tag : Tag) (hp : getPost db pid = some post)
    (ht : findTagByName db n = some tag)
    (hmem : (postTagIds db pid).contains tag.id = true)
    (hnd : db.post_tags.Nodup) :
    (add_tag_to_post db pid n).2.1 = db ∧
    (postTagIds ((add_tag_to_post db pid n).2.1) pid).count tag.id ≤ 1 := by
  have hstate : (add_tag_to_post db pid n).2.1 = db := by
    unfold add_tag_to_post
    rw [hp]
    simp only [ht, hmem, if_true]
  have hnodup : (postTagIds db pid).Nodup := by
    unfold postTagIds
    apply List.Nodup.map_on
    · intro x hx y hy hxy
      have hx1 : x.1 = pid := by simpa using (List.mem_filter.1 hx).2
      have hy1 : y.1 = pid := by simpa using (List.mem_filter.1 hy).2
      cases x
      cases y
      simp_all
    · exact hnd.filter _
  refine ⟨hstate, ?_⟩
  rw [hstate]
  exact List.nodup_iff_count_le_one.1 hnodup tag.id

/-- Witness for C1: one post with one attached tag; re-attaching "x". -/
theorem add_tag_idempotent_witness :
    (add_tag_to_post ⟨[], [⟨1, "t", "c", none⟩], [⟨1, "x"⟩], [(1, 1)]⟩ 1 "x").2.1 =
      ⟨[], [⟨1, "t", "c", none⟩], [⟨1, "x"⟩], [(1, 1)]⟩ ∧
    (postTagIds ((add_tag_to_post ⟨[], [⟨1, "t", "c", none⟩], [⟨1, "x"⟩], [(1, 1)]⟩ 1 "x").2.1) 1).count 1 ≤ 1 :=
  add_tag_idempotent ⟨[], [⟨1, "t", "c", none⟩], [⟨1, "x"⟩], [(1, 1)]⟩ 1 "x"
    ⟨1, "t", "c", none⟩ ⟨1, "x"⟩ (by decide) (by decide) (by decide) (by decide)

/-- Claim C3: DELETE /posts/{post_id}/tags/{tag_id} when the tag is not in
    the post's tag list leaves the database (including the association
    table) unchanged and returns 200 with the serialized post, not an
    error. -/
theorem remove_unattached_tag_noop (db : DB) (pid tid : Nat) (post : Post)
    (tag : Tag) (hp : getPost db pid = some post) (ht : getTag db tid = some tag)
    (hmem : (postTagIds db pid).contains tag.id = false) :
    remove_tag_from_post db pid tid = (200, db, some (post_to_dict db post)) := by
  unfold remove_tag_from_post
  rw [hp, ht]
  have hmem2 : tag.id ∉ postTagIds db pid := by simpa using hmem
  simp [hmem2]

/-- Witness for C3: a post and a tag that is not attached to it. -/
theorem remove_unattached_tag_noop_witness :
    remove_tag_from_post ⟨[], [⟨1, "t", "c", none⟩], [⟨1, "x"⟩], []⟩ 1 1 =
      (200, ⟨[], [⟨1, "t", "c", none⟩], [⟨1, "x"⟩], []⟩,
        some (post_to_dict ⟨[], [⟨1, "t", "c", none⟩], [⟨1, "x"⟩], []⟩ ⟨1, "t", "c", none⟩)) :=
  remove_unattached_tag_noop ⟨[], [⟨1, "t", "c", none⟩], [⟨1, "x"⟩], []⟩ 1 1
    ⟨1, "t", "c", none⟩ ⟨1, "x"⟩ (by decide) (by decide) (by decide)

/-- Claim C6: a POST /posts/{post_id}/tags or DELETE
    /posts/{post_id}/tags/{tag_id} request whose post id (or, for DELETE,
    tag id) matches no stored entity fails with 404 and leaves the database
    unchanged. -/
theorem missing_entity_404 (db db2 : DB) (pid tid pid2 tid2 : Nat)
    (n : String) (post2 : Post)
    (h1 : getPost db pid = none)
    (h2 : getPost db2 pid2 = some post2) (h3 : getTag db2 tid2 = none) :
    add_tag_to_post db pid n = (404, db, none) ∧
    remove_tag_from_post db pid tid = (404, db, none) ∧
    remove_tag_from_post db2 pid2 tid2 = (404, db2, none) := by
  refine ⟨?_, ?_, ?_⟩
  · unfold add_tag_to_post
    rw [h1]
  · unfold remove_tag_from_post
    rw [h1]
  · unfold remove_tag_from_post
    rw [h2, h3]

/-- Witness for C6: an empty database (missing post) and one with a post
    but no tags (missing tag). -/
theorem missing_entity_404_witness :
    add_tag_to_post ⟨[], [], [], []⟩ 1 "x" = (404, ⟨[], [], [], []⟩, none) ∧
    remove_tag_from_post ⟨[], [], [], []⟩ 1 1 = (404, ⟨[], [], [], []⟩, none) ∧
    remove_tag_from_post ⟨[], [⟨1, "t", "c", none⟩], [], []⟩ 1 7 =
      (404, ⟨[], [⟨1, "t", "c", none⟩], [], []⟩, none) :=
  missing_entity_404 ⟨[], [], [], []⟩ ⟨[], [⟨1, "t", "c", none⟩], [], []⟩ 1 1 1 7 "x"
    ⟨1, "t", "c", none⟩ (by decide) (by decide) (by decide)

/-- Claim C10: POST /posts/{post_id}/tags is find-or-create on the tag
    name: an existing tag with the requested name is reused and no row is
    created, otherwise exactly one tag row with that name (and the next
    primary key) is created; hence the endpoint keeps tag names unique. -/
theorem add_tag_find_or_create (db : DB) (pid : Nat) (n : String) (post : Post)
    (hp : getPost db pid = some post) :
    (∀ t, findTagByName db n = some t →
      ((add_tag_to_post db pid n).2.1).tags = db.tags) ∧
    (findTagByName db n = none →
      ((add_tag_to_post db pid n).2.1).tags =
        db.tags ++ [{ id := nextId (db.tags.map (fun t => t.id)), name := n }]) ∧
    ((db.tags.map (fun t => t.name)).Nodup →
      (((add_tag_to_post db pid n).2.1).tags.map (fun t => t.name)).Nodup) := by
  refine ⟨?_, ?_, ?_⟩
  · intro t hft
    unfold add_tag_to_post
    rw [hp]
    simp only [hft]
    split <;> rfl
  · intro hft
    unfold add_tag_to_post
    rw [hp]
    simp only [hft]
    split <;> rfl
  · intro hnames
    cases hft : findTagByName db n with
    | some t =>
      have e : ((add_tag_to_post db pid n).2.1).tags = db.tags := by
        unfold add_tag_to_post
        rw [hp]
        simp only [hft]
        split <;> rfl
      rw [e]
      exact hnames
    | none =>
      have e : ((add_tag_to_post db pid n).2.1).tags =
          db.tags ++ [{ id := nextId (db.tags.map (fun t => t.id)), name := n }] := by
        unfold add_tag_to_post
        rw [hp]
        simp only [hft]
        split <;> rfl
      rw [e, List.map_append, List.nodup_append]
      refine ⟨hnames, by simp, ?_⟩
      intro x hx hy
      simp only [List.map_cons, List.map_nil, List.mem_singleton] at hy
      subst hy
      unfold findTagByName at hft
      rw [List.find?_eq_none] at hft
      rw [List.mem_map] at hx
      obtain ⟨t, htmem, htname⟩ := hx
      exact hft t htmem (by simp [htname])

/-- Witness for C10 at a database holding one post and one tag. -/
theorem add_tag_find_or_create_witness :
    (∀ t, findTagByName ⟨[], [⟨1, "t", "c", none⟩], [⟨1, "x"⟩], []⟩ "y" = some t →
      ((add_tag_to_post ⟨[], [⟨1, "t", "c", none⟩], [⟨1, "x"⟩], []⟩ 1 "y").2.1).tags =
        [⟨1, "x"⟩]) ∧
    (findTagByName ⟨[], [⟨1, "t", "c", none⟩], [⟨1, "x"⟩], []⟩ "y" = none →
      ((add_tag_to_post ⟨[], [⟨1, "t", "c", none⟩], [⟨1, "x"⟩], []⟩ 1 "y").2.1).tags =
        [⟨1, "x"⟩] ++ [{ id := nextId ([⟨1, "x"⟩].map (fun t : Tag => t.id)), name := "y" }]) ∧
    (([⟨1, "x"⟩].map (fun t : Tag => t.name)).Nodup →
      (((add_tag_to_post ⟨[], [⟨1, "t", "c", none⟩], [⟨1, "x"⟩], []⟩ 1 "y").2.1).tags.map
        (fun t => t.name)).Nodup) :=
  add_tag_find_or_create ⟨[], [⟨1, "t", "c", none⟩], [⟨1, "x"⟩], []⟩ 1 "y"
    ⟨1, "t", "c", none⟩ (by decide)

/-- Claim C8: deleting a user also deletes every post whose user it was:
    afterwards the query for posts with that user's former id returns no
    rows (and indeed no surviving post references the deleted user). -/
theorem delete_user_cascades (db : DB) (uid : Nat) :
    (delete_user db uid).posts.filter (fun p => p.user_id == some uid) = [] ∧
    ∀ p ∈ (delete_user db uid).posts, p.user_id ≠ some uid := by
  constructor
  · unfold delete_user
    rw [List.filter_eq_nil_iff]
    intro p hp
    have := (List.mem_filter.1 hp).2
    simp_all
  · intro p hp
    unfold delete_user at hp
    have := (List.mem_filter.1 hp).2
    simp_all

/-- Claim C4: POST /users with body {"name": s} responds 201 with the
    serialization of the new user: the assigned id (the next primary key),
    the provided name, and an empty posts list. -/
theorem create_user_response (db : DB) (s : String)
    (hfk : ∀ p ∈ db.posts, optFk p.user_id (db.users.map (fun u => u.id)) = true) :
    (create_user db s).1 = 201 ∧
    (create_user db s).2.2 =
      J.obj [("id", J.num (nextId (db.users.map (fun u => u.id)))),
             ("name", J.str s), ("posts", J.arr [])] := by
  refine ⟨rfl, ?_⟩
  unfold create_user user_to_dict userScalars
  have hempty :
      userPostsOf
        { db with users := db.users ++
            [{ id := nextId (db.users.map (fun u => u.id)), name := s }] }
        { id := nextId (db.users.map (fun u => u.id)), name := s } = [] := by
    unfold userPostsOf
    rw [List.filter_eq_nil_iff]
    intro p hp heq
    rw [beq_iff_eq] at heq
    have hfkp := hfk p hp
    rw [heq] at hfkp
    unfold optFk at hfkp
    have hmem : nextId (db.users.map (fun u => u.id)) ∈ db.users.map (fun u => u.id) := by
      simpa using hfkp
    exact nextId_not_mem _ hmem
  simp [hempty]

/-- Witness for C4: the spec's example on an empty database:
    POST /users {"name":"John Doe"} gives 201 and
    {"id":1,"name":"John Doe","posts":[]}. -/
theorem create_user_response_witness :
    (create_user ⟨[], [], [], []⟩ "John Doe").1 = 201 ∧
    (create_user ⟨[], [], [], []⟩ "John Doe").2.2 =
      J.obj [("id", J.num 1), ("name", J.str "John Doe"), ("posts", J.arr [])] := by
  have h := create_user_response ⟨[], [], [], []⟩ "John Doe" (by simp)
  simpa [nextId] using h

/-- Claim C2: serializing a Tag with rule -posts.tags produces the tag's
    scalar columns plus a posts list in which no entry contains a 'tags'
    key at any nesting level. -/
theorem tag_serialization_excludes_nested_tags (db : DB) (t : Tag) :
    tag_to_dict db t =
      J.obj [("id", J.num t.id), ("name", J.str t.name),
             ("posts", J.arr ((tagPostsOf db t).map (tag_post_entry db)))] ∧
    ∀ p : Post, noKey "tags" (tag_post_entry db p) = true := by
  constructor
  · rfl
  · intro p
    unfold tag_post_entry postScalars
    cases hu : postUserOf db p <;> cases hid : p.user_id <;>
      simp [noKey, noKeyObj, jOptNat, userScalars]

/-- Claim C5: serializing a Post with rule -user.posts (in either service)
    gives a 'user' entry holding exactly the user's scalar columns, with no
    'posts' key at any nesting level. -/
theorem post_serialization_excludes_user_posts (db : DB) (p : Post) (u : User)
    (hu : postUserOf db p = some u) :
    getKey (post_to_dict db p) "user" =
      some (J.obj [("id", J.num u.id), ("name", J.str u.name)]) ∧
    getKey (post_to_dict_app db p) "user" =
      some (J.obj [("id", J.num u.id), ("name", J.str u.name)]) ∧
    noKey "posts" (J.obj [("id", J.num u.id), ("name", J.str u.name)]) = true := by
  refine ⟨?_, ?_, rfl⟩
  · unfold post_to_dict getKey postScalars userScalars
    rw [hu]
    rfl
  · unfold post_to_dict_app getKey postScalars userScalars
    rw [hu]
    rfl

/-- Witness for C5: a post whose author is user 1. -/
theorem post_serialization_excludes_user_posts_witness :
    getKey (post_to_dict ⟨[⟨1, "John Doe"⟩], [⟨1, "t", "c", some 1⟩], [], []⟩
        ⟨1, "t", "c", some 1⟩) "user" =
      some (J.obj [("id", J.num 1), ("name", J.str "John Doe")]) ∧
    getKey (post_to_dict_app ⟨[⟨1, "John Doe"⟩], [⟨1, "t", "c", some 1⟩], [], []⟩
        ⟨1, "t", "c", some 1⟩) "user" =
      some (J.obj [("id", J.num 1), ("name", J.str "John Doe")]) ∧
    noKey "posts" (J.obj [("id", J.num 1), ("name", J.str "John Doe")]) = true :=
  post_serialization_excludes_user_posts
    ⟨[⟨1, "John Doe"⟩], [⟨1, "t", "c", some 1⟩], [], []⟩
    ⟨1, "t", "c", some 1⟩ ⟨1, "John Doe"⟩ rfl

/-- Claim C9: DELETE /posts/{post_id}/tags/{tag_id} removes only the
    association between that post and that tag: the users, posts and tags
    tables are unchanged (so the Tag row survives), no association row is
    added, every association row other than the removed pair survives,
    every other post's tag list is unchanged, and the detached tag is still
    among the serialized tags a subsequent GET /tags returns. -/
theorem remove_tag_frame (db : DB) (pid tid : Nat) (post : Post) (tag : Tag)
    (hp : getPost db pid = some post) (ht : getTag db tid = some tag) :
    (remove_tag_from_post db pid tid).1 = 200 ∧
    ((remove_tag_from_post db pid tid).2.1).users = db.users ∧
    ((remove_tag_from_post db pid tid).2.1).posts = db.posts ∧
    ((remove_tag_from_post db pid tid).2.1).tags = db.tags ∧
    (∀ pr ∈ db.post_tags, ¬(pr.1 = pid ∧ pr.2 = tid) →
      pr ∈ ((remove_tag_from_post db pid tid).2.1).post_tags) ∧
    (∀ pr ∈ ((remove_tag_from_post db pid tid).2.1).post_tags,
      pr ∈ db.post_tags) ∧
    (∀ q : Nat, q ≠ pid →
      postTagIds ((remove_tag_from_post db pid tid).2.1) q = postTagIds db q) ∧
    tag_to_dict ((remove_tag_from_post db pid tid).2.1) tag ∈
      ((remove_tag_from_post db pid tid).2.1).tags.map
        (tag_to_dict ((remove_tag_from_post db pid tid).2.1)) ∧
    (get_tags ((remove_tag_from_post db pid tid).2.1)).2 =
      J.arr (((remove_tag_from_post db pid tid).2.1).tags.map
        (tag_to_dict ((remove_tag_from_post db pid tid).2.1))) := by
  have htag : tag ∈ db.tags ∧ tag.id = tid := getTag_spec ht
  have hres : (remove_tag_from_post db pid tid).2.1 = db ∨
      (remove_tag_from_post db pid tid).2.1 =
        { db with post_tags :=
            db.post_tags.filter (fun pr => !(pr.1 == pid && pr.2 == tag.id)) } := by
    by_cases hc : (postTagIds db pid).contains tag.id = true
    · right
      have hc2 : tag.id ∈ postTagIds db pid := by simpa using hc
      unfold remove_tag_from_post
      rw [hp, ht]
      simp [hc2]
    · left
      have hc2 : tag.id ∉ postTagIds db pid := by simpa using hc
      unfold remove_tag_from_post
      rw [hp, ht]
      simp [hc2]
  have hstatus : (remove_tag_from_post db pid tid).1 = 200 := by
    unfold remove_tag_from_post
    rw [hp, ht]
  refine ⟨hstatus, ?_, ?_, ?_, ?_, ?_, ?_, ?_, rfl⟩
  · rcases hres with h | h <;> rw [h]
  · rcases hres with h | h <;> rw [h]
  · rcases hres with h | h <;> rw [h]
  · intro pr hpr hne
    rcases hres with h | h <;> rw [h]
    · exact hpr
    · refine List.mem_filter.2 ⟨hpr, ?_⟩
      rw [htag.2]
      by_cases ha : pr.1 = pid
      · by_cases hb : pr.2 = tid
        · exact absurd ⟨ha, hb⟩ hne
        · simp [ha, hb]
      · simp [ha]
  · intro pr hpr
    rcases hres with h | h <;> rw [h] at hpr
    · exact hpr
    · exact (List.mem_filter.1 hpr).1
  · intro q hq
    rcases hres with h | h <;> rw [h]
    unfold postTagIds
    simp only [List.filter_filter]
    congr 1
    apply List.filter_congr
    intro pr hpr
    by_cases h1 : pr.1 = q
    · have h2 : (pr.1 == pid) = false := by
        rw [beq_eq_false_iff_ne, h1]
        exact hq
      rw [h2]
      simp
    · have h2 : (pr.1 == q) = false := beq_eq_false_iff_ne.2 h1
      rw [h2]
      simp
  · have : ((remove_tag_from_post db pid tid).2.1).tags = db.tags := by
      rcases hres with h | h <;> rw [h]
    rw [this]
    exact List.mem_map_of_mem _ htag.1

/-- Witness for C9: one post, one tag, attached; detach it. -/
theorem remove_tag_frame_witness :
    (remove_tag_from_post ⟨[], [⟨1, "t", "c", none⟩], [⟨1, "x"⟩], [(1, 1)]⟩ 1 1).1 = 200 ∧
    ((remove_tag_from_post ⟨[], [⟨1, "t", "c", none⟩], [⟨1, "x"⟩], [(1, 1)]⟩ 1 1).2.1).users = [] ∧
    ((remove_tag_from_post ⟨[], [⟨1, "t", "c", none⟩], [⟨1, "x"⟩], [(1, 1)]⟩ 1 1).2.1).posts = [⟨1, "t", "c", none⟩] ∧
    ((remove_tag_from_post ⟨[], [⟨1, "t", "c", none⟩], [⟨1, "x"⟩], [(1, 1)]⟩ 1 1).2.1).tags = [⟨1, "x"⟩] ∧
    (∀ pr ∈ [((1 : Nat), (1 : Nat))], ¬(pr.1 = 1 ∧ pr.2 = 1) →
      pr ∈ ((remove_tag_from_post ⟨[], [⟨1, "t", "c", none⟩], [⟨1, "x"⟩], [(1, 1)]⟩ 1 1).2.1).post_tags) ∧
    (∀ pr ∈ ((remove_tag_from_post ⟨[], [⟨1, "t", "c", none⟩], [⟨1, "x"⟩], [(1, 1)]⟩ 1 1).2.1).post_tags,
      pr ∈ [((1 : Nat), (1 : Nat))]) ∧
    (∀ q : Nat, q ≠ 1 →
      postTagIds ((remove_tag_from_post ⟨[], [⟨1, "t", "c", none⟩], [⟨1, "x"⟩], [(1, 1)]⟩ 1 1).2.1) q =
        postTagIds ⟨[], [⟨1, "t", "c", none⟩], [⟨1, "x"⟩], [(1, 1)]⟩ q) ∧
    tag_to_dict ((remove_tag_from_post ⟨[], [⟨1, "t", "c", none⟩], [⟨1, "x"⟩], [(1, 1)]⟩ 1 1).2.1) ⟨1, "x"⟩ ∈
      ((remove_tag_from_post ⟨[], [⟨1, "t", "c", none⟩], [⟨1, "x"⟩], [(1, 1)]⟩ 1 1).2.1).tags.map
        (tag_to_dict ((remove_tag_from_post ⟨[], [⟨1, "t", "c", none⟩], [⟨1, "x"⟩], [(1, 1)]⟩ 1 1).2.1)) ∧
    (get_tags ((remove_tag_from_post ⟨[], [⟨1, "t", "c", none⟩], [⟨1, "x"⟩], [(1, 1)]⟩ 1 1).2.1)).2 =
      J.arr (((remove_tag_from_post ⟨[], [⟨1, "t", "c", none⟩], [⟨1, "x"⟩], [(1, 1)]⟩ 1 1).2.1).tags.map
        (tag_to_dict ((remove_tag_from_post ⟨[], [⟨1, "t", "c", none⟩], [⟨1, "x"⟩], [(1, 1)]⟩ 1 1).2.1))) :=
  remove_tag_frame ⟨[], [⟨1, "t", "c", none⟩], [⟨1, "x"⟩], [(1, 1)]⟩ 1 1
    ⟨1, "t", "c", none⟩ ⟨1, "x"⟩ (by decide) (by decide)

/-- Witness for C2 at a concrete tag attached to one post. -/
theorem tag_serialization_excludes_nested_tags_witness :
    tag_to_dict ⟨[], [⟨1, "t", "c", none⟩], [⟨1, "x"⟩], [(1, 1)]⟩ ⟨1, "x"⟩ =
      J.obj [("id", J.num 1), ("name", J.str "x"),
             ("posts", J.arr ((tagPostsOf ⟨[], [⟨1, "t", "c", none⟩], [⟨1, "x"⟩], [(1, 1)]⟩
               ⟨1, "x"⟩).map (tag_post_entry ⟨[], [⟨1, "t", "c", none⟩], [⟨1, "x"⟩], [(1, 1)]⟩)))] ∧
    ∀ p : Post,
      noKey "tags" (tag_post_entry ⟨[], [⟨1, "t", "c", none⟩], [⟨1, "x"⟩], [(1, 1)]⟩ p) = true :=
  tag_serialization_excludes_nested_tags ⟨[], [⟨1, "t", "c", none⟩], [⟨1, "x"⟩], [(1, 1)]⟩ ⟨1, "x"⟩

/-- Witness for C8 at a user owning one post. -/
theorem delete_user_cascades_witness :
    (delete_user ⟨[⟨1, "John Doe"⟩], [⟨1, "t", "c", some 1⟩], [], []⟩ 1).posts.filter
      (fun p => p.user_id == some 1) = [] ∧
    ∀ p ∈ (delete_user ⟨[⟨1, "John Doe"⟩], [⟨1, "t", "c", some 1⟩], [], []⟩ 1).posts,
      p.user_id ≠ some 1 :=
  delete_user_cascades ⟨[⟨1, "John Doe"⟩], [⟨1, "t", "c", some 1⟩], [], []⟩ 1
